import Mathlib

/-!
Verification of the ShrineUpdater pipeline (src/dbd-shrine-api/index.js).

The JavaScript source is shallowly embedded: perk records become a structure
of optional string fields, JS truthiness on those fields is made explicit,
HTTP fetch outcomes become an inductive datatype, and the mutable module
state (cache, lastFetch) becomes explicit state passing.
-/

deriving instance DecidableEq for Except

namespace ShrineUpdater

/-- JS truthiness for an optional string value: absent (undefined or null)
and the empty string are falsy, every other string is truthy. -/
def truthy : Option String → Bool
  | none => false
  | some s => s != ""

/-- JS shortcut-or on optional strings: the expression a OR b evaluates to a
when a is truthy and to b otherwise (b is returned even when falsy). -/
def jsOr (a b : Option String) : Option String :=
  if truthy a then a else b

/-- JS shortcut-or chain ending in a bare string default, as in
`x OR y OR key`: the default is returned verbatim when the option is falsy. -/
def jsOrStr (a : Option String) (b : String) : String :=
  match a with
  | none => b
  | some s => if s = "" then b else s

/-- First truthy element of a list of optional strings, as in a JS
shortcut-or chain that ends in null, or `candidates.find(Boolean) || null`. -/
def firstTruthy : List (Option String) → Option String
  | [] => none
  | a :: rest => if truthy a then a else firstTruthy rest

/-- Model of JS `String.prototype.toLowerCase` (ASCII part). -/
def jsToLowerCase (s : String) : String :=
  String.mk (s.data.map Char.toLower)

/-- Model of JS `String.prototype.startsWith`: the argument's characters are
a prefix of the receiver's characters. -/
def jsStartsWith (s p : String) : Bool :=
  p.data.isPrefixOf s.data

/-- A perk-like JSON record, with every field the code ever reads modelled
as an optional string (absent fields are `none`). Covers shrine perks,
catalog entries, and merged perks alike, since the code reads all of them
defensively. -/
structure Perk where
  id : Option String := none
  perkId : Option String := none
  name : Option String := none
  perkName : Option String := none
  displayName : Option String := none
  description : Option String := none
  role : Option String := none
  roleCategory : Option String := none
  character : Option String := none
  owner : Option String := none
  survivor : Option String := none
  killer : Option String := none
  icon : Option String := none
  iconUrl : Option String := none
  iconPath : Option String := none
  image : Option String := none
  perkImage : Option String := none
  perkIcon : Option String := none
deriving DecidableEq

/-- The `perks` field of an upstream payload: either a genuine array, or a
non-array value (with its JS truthiness recorded, since `payload?.perks || []`
distinguishes truthy from falsy non-arrays). -/
inductive PerksField where
  | notArr (truthyVal : Bool)
  | arr (perks : List Perk)
deriving DecidableEq

/-- An upstream shrine payload, viewed through the only field the code
inspects: `perks`. -/
structure Payload where
  perks : PerksField := PerksField.notArr false
deriving DecidableEq

/-- PERK_OVERRIDES (index.js lines 27-30): static table mapping known perk
identifiers to corrected display names; modelled as the `name` field of the
override entry for a key. -/
def PERK_OVERRIDES (key : String) : Option String :=
  if key = "k28p02" then some "Darkness Revealed"
  else if key = "k32p02" then some "Forced Hesitation"
  else none

/-- normalizeImageUrl (index.js lines 32-36): falsy input gives null, an
input starting with "http" is returned unchanged, otherwise the input is
joined to the fixed base host, inserting a slash unless one is present. -/
def normalizeImageUrl : Option String → Option String
  | none => none
  | some image =>
    if image = "" then none
    else if jsStartsWith image "http" then some image
    else some ("https://dbd.tricky.lol" ++ (if jsStartsWith image "/" then "" else "/") ++ image)

/-- CACHE_TIME (index.js line 43): one week in milliseconds. -/
def CACHE_TIME : Nat := 1000 * 60 * 60 * 24 * 7

/-- extractImage (index.js lines 51-62): first truthy candidate among the
image-bearing fields, in source order, else null. -/
def extractImage (perk : Perk) : Option String :=
  firstTruthy [perk.icon, perk.iconUrl, perk.iconPath, perk.image, perk.perkImage, perk.perkIcon]

/-- An entry of the `images` list: `{ name, image }` (index.js lines 71-76). -/
structure ImageRecord where
  name : Option String
  image : Option String
deriving DecidableEq

/-- Result of enrichPayload: the enriched perk list and the images list. -/
structure EnrichResult where
  perksWithImages : List Perk
  images : List ImageRecord
deriving DecidableEq

/-- The perk list the code extracts from a payload:
`Array.isArray(payload?.perks) ? payload.perks : []` (index.js line 65). -/
def jsPerks (payload : Payload) : List Perk :=
  match payload.perks with
  | PerksField.arr l => l
  | PerksField.notArr _ => []

/-- enrichPayload (index.js lines 64-79). -/
def enrichPayload (payload : Payload) : EnrichResult :=
  let perks := jsPerks payload
  let perksWithImages := perks.map (fun perk =>
    match extractImage perk with
    | some image => { perk with image := some image }
    | none => perk)
  let images := (perksWithImages.map (fun p =>
      ({ name := firstTruthy [p.name, p.perkName, p.displayName, p.id],
         image := jsOr p.image (jsOr (extractImage p) none) } : ImageRecord))).filter
    (fun p => truthy p.image)
  { perksWithImages := perksWithImages, images := images }

/-- Normalized key of a catalog entry (index.js line 115):
`(perk.id || perk.perkId || perk.name || "").toString().toLowerCase()`. -/
def catalogKey (perk : Perk) : String :=
  jsToLowerCase (jsOrStr (jsOr perk.id (jsOr perk.perkId perk.name)) "")

/-- The byId lookup built by mapPerksWithCatalog (index.js lines 112-117):
falsy catalog entries are skipped, blank keys are skipped, and later entries
overwrite earlier ones with the same key. -/
def buildById (catalog : List (Option Perk)) : String → Option Perk :=
  catalog.foldl (fun byId entry =>
    match entry with
    | none => byId
    | some perk =>
      let key := catalogKey perk
      if key = "" then byId
      else fun q => if q = key then some perk else byId q)
    (fun _ => none)

/-- Normalized key of a shrine perk (index.js line 120):
`(perk.id || "").toString().toLowerCase()`. -/
def shrineKey (perk : Perk) : String :=
  jsToLowerCase (jsOrStr perk.id "")

/-- The per-perk body of the map in mapPerksWithCatalog
(index.js lines 119-133). -/
def mergePerk (byId : String → Option Perk) (perk : Perk) : Perk :=
  let key := shrineKey perk
  let found := byId key
  let overrideName := PERK_OVERRIDES key
  if found.isNone && overrideName.isNone then perk
  else
    let image := normalizeImageUrl (match found with
      | some f => extractImage f
      | none => none)
    { perk with
      name := some (jsOrStr
        (jsOr overrideName (jsOr (found.bind Perk.name) (jsOr (found.bind Perk.displayName) perk.name)))
        key),
      description := jsOr (found.bind Perk.description) perk.description,
      role := jsOr (found.bind Perk.role) (found.bind Perk.roleCategory),
      character := jsOr (found.bind Perk.character)
        (jsOr (found.bind Perk.owner) (jsOr (found.bind Perk.survivor) (found.bind Perk.killer))),
      image := jsOr image perk.image }

/-- mapPerksWithCatalog (index.js lines 111-134). -/
def mapPerksWithCatalog (shrinePerks : List Perk) (catalog : List (Option Perk)) : List Perk :=
  shrinePerks.map (mergePerk (buildById catalog))

/-- Outcome of one `fetch(url)` call: either the fetch itself threw
(network error), or a response arrived with a status code and a body whose
JSON parse either succeeded with a payload or threw with a message. -/
inductive FetchResult where
  | networkError (msg : String)
  | response (status : Nat) (body : Except String Payload)
deriving DecidableEq

/-- `response.ok`: status in the 2xx success range. -/
def respOk (status : Nat) : Bool :=
  200 ≤ status && status < 300

/-- A candidate succeeds when its response has a success status and a
JSON-parseable body. -/
def isSuccess : FetchResult → Bool
  | FetchResult.response status (Except.ok _) => respOk status
  | _ => false

/-- The error entry pushed for a failing candidate (index.js lines 145, 151):
the URL paired with the status code or the exception message. -/
def failEntry : String × FetchResult → String
  | (url, FetchResult.networkError msg) => url ++ " -> " ++ msg
  | (url, FetchResult.response status body) =>
    if respOk status then
      match body with
      | Except.error msg => url ++ " -> " ++ msg
      | Except.ok _ => ""
    else url ++ " -> " ++ toString status

/-- The loop of fetchFromSources (index.js lines 140-153), with the errors
accumulator made explicit. -/
def fetchGo : List (String × FetchResult) → List String → Except String (String × Payload)
  | [], errors => Except.error ("All shrine sources failed: " ++ String.intercalate " | " errors)
  | (url, result) :: rest, errors =>
    match result with
    | FetchResult.networkError msg => fetchGo rest (errors ++ [url ++ " -> " ++ msg])
    | FetchResult.response status body =>
      if respOk status then
        match body with
        | Except.ok payload => Except.ok (url, payload)
        | Except.error msg => fetchGo rest (errors ++ [url ++ " -> " ++ msg])
      else fetchGo rest (errors ++ [url ++ " -> " ++ toString status])

/-- fetchFromSources (index.js lines 136-156): the candidate list is paired
with each URL's fetch outcome; success short-circuits, failures accumulate
into one aggregate error. -/
def fetchFromSources (candidates : List (String × FetchResult)) : Except String (String × Payload) :=
  fetchGo candidates []

/-- The in-memory cache snapshot built on a successful refresh
(index.js lines 177-184). -/
structure Snapshot where
  fetchedAt : String
  sourceUsed : String
  sourceTried : List String
  data : Payload
  perksWithImages : List Perk
  images : List ImageRecord
deriving DecidableEq

/-- The module-level mutable state of index.js: `cache` (line 40) and
`lastFetch` (line 41). -/
structure CacheState where
  cache : Option Snapshot
  lastFetch : Nat

/-- The refresh path of loadShrine (index.js lines 164-186): fetch the
shrine payload; try the catalog merge, falling back to plain enrichment of
the raw payload when the catalog fetch failed or the merge threw (a truthy
non-array `perks` makes `.map` throw inside the same try block); then
replace the snapshot and timestamp. A shrine fetch failure propagates and
leaves the state untouched. -/
def refreshShrine (now : Nat) (nowIso : String)
    (candidates : List (String × FetchResult))
    (catalogResult : Except String (List (Option Perk)))
    (st : CacheState) : CacheState × Except String Snapshot :=
  match fetchFromSources candidates with
  | Except.error e => (st, Except.error e)
  | Except.ok (url, payload) =>
    let enriched :=
      match catalogResult with
      | Except.ok catalog =>
        (match payload.perks with
         | PerksField.arr l => enrichPayload { perks := PerksField.arr (mapPerksWithCatalog l catalog) }
         | PerksField.notArr false => enrichPayload { perks := PerksField.arr (mapPerksWithCatalog [] catalog) }
         | PerksField.notArr true => enrichPayload payload)
      | Except.error _ => enrichPayload payload
    let snap : Snapshot :=
      { fetchedAt := nowIso,
        sourceUsed := url,
        sourceTried := candidates.map Prod.fst,
        data := payload,
        perksWithImages := enriched.perksWithImages,
        images := enriched.images }
    ({ cache := some snap, lastFetch := now }, Except.ok snap)

/-- loadShrine (index.js lines 158-187): serve the cached snapshot on a
non-forced call within the TTL, otherwise run the refresh path. The mutable
module state is passed and returned explicitly; `now` is Date.now() in
milliseconds and `nowIso` the ISO timestamp recorded in the snapshot. -/
def loadShrine (force : Bool) (now : Nat) (nowIso : String)
    (candidates : List (String × FetchResult))
    (catalogResult : Except String (List (Option Perk)))
    (st : CacheState) : CacheState × Except String Snapshot :=
  match st.cache with
  | some snap =>
    if force = false ∧ now - st.lastFetch < CACHE_TIME then (st, Except.ok snap)
    else refreshShrine now nowIso candidates catalogResult st
  | none => refreshShrine now nowIso candidates catalogResult st

/-- The shrine perk of the C6 scenario: identifier k28p02 with a relative
icon path. -/
def c6Perk : Perk := { id := some "k28p02", icon := some "/icons/a.png" }

/-- The full merge-then-enrich pipeline of loadShrine (index.js lines
168-172) applied to the C6 scenario payload with an empty catalog. -/
def c6Pipeline : List Perk :=
  (enrichPayload { perks := PerksField.arr (mapPerksWithCatalog [c6Perk] []) }).perksWithImages

/-- The shrine perk of the C7 scenario: identifier x with an absolute image
URL. -/
def c7Perk : Perk := { id := some "x", image := some "http://full/url.png" }

/-- The shrine payload of the C7 scenario. -/
def c7Payload : Payload := { perks := PerksField.arr [c7Perk] }

/-- A concrete candidate list for exercising fetchFromSources: two failures
followed by two successes. -/
def c1Cands : List (String × FetchResult) :=
  [("u1", FetchResult.response 503 (Except.error "bad json")),
   ("u2", FetchResult.networkError "ECONNRESET"),
   ("u3", FetchResult.response 200 (Except.ok c7Payload)),
   ("u4", FetchResult.response 201 (Except.ok { perks := PerksField.notArr false }))]

/-- A concrete candidate list on which every fetch fails. -/
def c8Cands : List (String × FetchResult) :=
  [("u1", FetchResult.response 503 (Except.error "unused")),
   ("u2", FetchResult.networkError "ECONNRESET"),
   ("u3", FetchResult.response 200 (Except.error "invalid json"))]

/-- A shrine perk matching neither the catalog nor the override table. -/
def c2Perk : Perk := { id := some "zzz", name := some "Some Perk" }

/-- A shrine perk whose key is in the override table. -/
def c3Perk : Perk := { id := some "k28p02" }

/-- A catalog entry for the same key, carrying its own name. -/
def c3CatEntry : Perk := { id := some "K28P02", name := some "Catalog Name" }

/-- A catalog containing that entry. -/
def c3Catalog : List (Option Perk) := [some c3CatEntry]

/-- A concrete warm snapshot for exercising the cache controller. -/
def demoSnap : Snapshot :=
  { fetchedAt := "2026-01-01T00:00:00.000Z",
    sourceUsed := "u3",
    sourceTried := ["u1", "u2", "u3", "u4"],
    data := c7Payload,
    perksWithImages := [c7Perk],
    images := [{ name := some "x", image := some "http://full/url.png" }] }

/-- A warm cache state holding that snapshot, fetched at time 0. -/
def demoState : CacheState := { cache := some demoSnap, lastFetch := 0 }

/-- The cold cache state at process start. -/
def coldState : CacheState := { cache := none, lastFetch := 0 }

/-- A concrete payload with one perk that has an extractable image and one
that has none. -/
def c10Payload : Payload :=
  { perks := PerksField.arr
      [{ id := some "a", name := some "WithIcon", iconPath := some "icons/w.png" },
       { id := some "b", name := some "NoIcon" }] }

/-! ## Helper lemmas -/

/-- Whatever the hit-or-not, a string starting with the fixed base host
starts with "http". -/
theorem jsStartsWith_base_http (t : String) :
    jsStartsWith ("https://dbd.tricky.lol" ++ t) "http" = true := by
  unfold jsStartsWith
  rw [String.data_append]
  have h : ("https://dbd.tricky.lol" : String).data = "http".data ++ "s://dbd.tricky.lol".data := by
    decide
  rw [h, List.append_assoc, List.isPrefixOf_iff_prefix]
  exact List.prefix_append _ _

/-- A string with the "http" prefix is nonempty. -/
theorem ne_empty_of_jsStartsWith_http (t : String) (h : jsStartsWith t "http" = true) :
    ¬ t = "" := by
  intro he
  subst he
  revert h
  decide

/-- String append is associative. -/
theorem str_append_assoc (a b c : String) : a ++ b ++ c = a ++ (b ++ c) := by
  apply String.ext
  simp [String.data_append, List.append_assoc]

/-- C9: normalizeImageUrl is idempotent on every string input; an input that
already starts with the HTTP scheme comes back unchanged; a nonempty relative
input is joined to the base host, with a separating slash inserted exactly
when the input does not already start with one. -/
theorem normalizeImageUrl_spec :
    (∀ s : String, normalizeImageUrl (normalizeImageUrl (some s)) = normalizeImageUrl (some s)) ∧
    (∀ s : String, jsStartsWith s "http" = true → normalizeImageUrl (some s) = some s) ∧
    (∀ s : String, ¬ s = "" → jsStartsWith s "http" = false → jsStartsWith s "/" = true →
      normalizeImageUrl (some s) = some ("https://dbd.tricky.lol" ++ s)) ∧
    (∀ s : String, ¬ s = "" → jsStartsWith s "http" = false → jsStartsWith s "/" = false →
      normalizeImageUrl (some s) = some ("https://dbd.tricky.lol/" ++ s)) := by
  have habs : ∀ s : String, jsStartsWith s "http" = true → normalizeImageUrl (some s) = some s := by
    intro s hs
    have hne := ne_empty_of_jsStartsWith_http s hs
    simp [normalizeImageUrl, hne, hs]
  refine ⟨?_, habs, ?_, ?_⟩
  · intro s
    by_cases h0 : s = ""
    · subst h0; rfl
    by_cases h1 : jsStartsWith s "http" = true
    · rw [habs s h1, habs s h1]
    · have hform : normalizeImageUrl (some s) =
          some ("https://dbd.tricky.lol" ++ ((if jsStartsWith s "/" then "" else "/") ++ s)) := by
        simp [normalizeImageUrl, h0, h1, str_append_assoc]
      rw [hform, habs _ (jsStartsWith_base_http _)]
  · intro s h0 h1 h2
    simp [normalizeImageUrl, h0, h1, h2]
  · intro s h0 h1 h2
    simp [normalizeImageUrl, h0, h1, h2]

/-- C9 witness: concrete instances of the three behaviours. -/
theorem normalizeImageUrl_spec_witness :
    normalizeImageUrl (normalizeImageUrl (some "icons/a.png")) = normalizeImageUrl (some "icons/a.png") ∧
    (jsStartsWith "http://full/url.png" "http" = true ∧
      normalizeImageUrl (some "http://full/url.png") = some "http://full/url.png") ∧
    (¬ "/icons/a.png" = "" ∧ jsStartsWith "/icons/a.png" "http" = false ∧
      jsStartsWith "/icons/a.png" "/" = true ∧
      normalizeImageUrl (some "/icons/a.png") = some ("https://dbd.tricky.lol" ++ "/icons/a.png")) ∧
    (¬ "icons/a.png" = "" ∧ jsStartsWith "icons/a.png" "http" = false ∧
      jsStartsWith "icons/a.png" "/" = false ∧
      normalizeImageUrl (some "icons/a.png") = some ("https://dbd.tricky.lol/" ++ "icons/a.png")) :=
  ⟨normalizeImageUrl_spec.1 "icons/a.png",
   ⟨by decide, normalizeImageUrl_spec.2.1 "http://full/url.png" (by decide)⟩,
   ⟨by decide, by decide, by decide,
    normalizeImageUrl_spec.2.2.1 "/icons/a.png" (by decide) (by decide) (by decide)⟩,
   ⟨by decide, by decide, by decide,
    normalizeImageUrl_spec.2.2.2 "icons/a.png" (by decide) (by decide) (by decide)⟩⟩

/-- The fetch loop short-circuits at the first successful candidate,
independently of the errors accumulated so far. -/
theorem fetchGo_of_find_success (cands : List (String × FetchResult)) (u : String)
    (status : Nat) (p : Payload)
    (h : cands.find? (fun c => isSuccess c.2) = some (u, FetchResult.response status (Except.ok p))) :
    ∀ errs : List String, fetchGo cands errs = Except.ok (u, p) := by
  induction cands with
  | nil => simp [List.find?] at h
  | cons c rest ih =>
    intro errs
    obtain ⟨url, r⟩ := c
    by_cases hs : isSuccess r = true
    · rw [show List.find? (fun c => isSuccess c.2) ((url, r) :: rest) = some (url, r) from by
        simp [List.find?_cons, hs]] at h
      injection h with h
      injection h with h1 h2
      subst h1
      subst h2
      have hok : respOk status = true := hs
      simp [fetchGo, hok]
    · rw [show List.find? (fun c => isSuccess c.2) ((url, r) :: rest) =
            List.find? (fun c => isSuccess c.2) rest from by
        simp [List.find?_cons, Bool.eq_false_iff.mpr hs]] at h
      cases r with
      | networkError m => exact ih h _
      | response st body =>
        cases body with
        | ok pl =>
          have hok : respOk st = false := by simpa [isSuccess] using hs
          simp [fetchGo, hok]
          exact ih h _
        | error m =>
          cases hok : respOk st <;> simp [fetchGo, hok] <;> exact ih h _

/-- C1: when at least one candidate yields a success status and a
JSON-parseable body, fetchFromSources returns the payload and URL of the
first such candidate, regardless of earlier failures. -/
theorem fetchFromSources_first_success (cands : List (String × FetchResult)) (u : String)
    (status : Nat) (p : Payload)
    (h : cands.find? (fun c => isSuccess c.2) = some (u, FetchResult.response status (Except.ok p))) :
    fetchFromSources cands = Except.ok (u, p) :=
  fetchGo_of_find_success cands u status p h []

/-- C1 witness: on a concrete list whose first two candidates fail, the
third (first successful) candidate's URL and payload are returned. -/
theorem fetchFromSources_first_success_witness :
    (c1Cands.find? (fun c => isSuccess c.2) = some ("u3", FetchResult.response 200 (Except.ok c7Payload))) ∧
    fetchFromSources c1Cands = Except.ok ("u3", c7Payload) :=
  ⟨by decide, fetchFromSources_first_success c1Cands "u3" 200 c7Payload (by decide)⟩

/-- When every candidate fails, the fetch loop accumulates one error entry
per candidate, in order, behind whatever was already accumulated. -/
theorem fetchGo_all_fail (cands : List (String × FetchResult))
    (h : ∀ c ∈ cands, isSuccess c.2 = false) :
    ∀ errs : List String, fetchGo cands errs =
      Except.error ("All shrine sources failed: " ++
        String.intercalate " | " (errs ++ cands.map failEntry)) := by
  induction cands with
  | nil => intro errs; simp [fetchGo]
  | cons c rest ih =>
    intro errs
    have hc : isSuccess c.2 = false := h c (by simp)
    have hrest : ∀ x ∈ rest, isSuccess x.2 = false := fun x hx => h x (by simp [hx])
    obtain ⟨url, r⟩ := c
    cases r with
    | networkError m =>
      have step : fetchGo ((url, FetchResult.networkError m) :: rest) errs =
          fetchGo rest (errs ++ [url ++ " -> " ++ m]) := rfl
      rw [step, ih hrest]
      simp [failEntry]
    | response st body =>
      cases body with
      | ok pl =>
        have hok : respOk st = false := by simpa [isSuccess] using hc
        simp only [fetchGo, hok, Bool.false_eq_true, if_false]
        rw [ih hrest]
        simp [failEntry, hok]
      | error m =>
        cases hok : respOk st with
        | true =>
          simp only [fetchGo, hok, if_true]
          rw [ih hrest]
          simp [failEntry, hok]
        | false =>
          simp only [fetchGo, hok, Bool.false_eq_true, if_false]
          rw [ih hrest]
          simp [failEntry, hok]

/-- C8: when every candidate fails, fetchFromSources throws an aggregate
error whose message lists exactly one entry per candidate, pairing each URL
with its specific failure reason, in the original attempt order. -/
theorem fetchFromSources_all_fail (cands : List (String × FetchResult))
    (h : ∀ c ∈ cands, isSuccess c.2 = false) :
    fetchFromSources cands =
      Except.error ("All shrine sources failed: " ++
        String.intercalate " | " (cands.map failEntry)) := by
  have := fetchGo_all_fail cands h []
  simpa [fetchFromSources] using this

/-- C8 witness: a concrete list with a bad status, a network error and a
JSON parse error yields the aggregate message with the three entries in
order. -/
theorem fetchFromSources_all_fail_witness :
    (∀ c ∈ c8Cands, isSuccess c.2 = false) ∧
    fetchFromSources c8Cands =
      Except.error ("All shrine sources failed: " ++
        String.intercalate " | " (c8Cands.map failEntry)) ∧
    String.intercalate " | " (c8Cands.map failEntry) =
      "u1 -> 503 | u2 -> ECONNRESET | u3 -> invalid json" :=
  ⟨by decide, fetchFromSources_all_fail c8Cands (by decide), by decide⟩

/-- C2: the enrichment merge keeps the length of the shrine perk list, maps
each position to the merge of the perk at the same position (so the original
relative ordering is preserved), and a perk with neither a catalog match nor
an override name passes through unchanged. -/
theorem mapPerksWithCatalog_preserves (perks : List Perk) (catalog : List (Option Perk)) :
    (mapPerksWithCatalog perks catalog).length = perks.length ∧
    (∀ i : Nat, (mapPerksWithCatalog perks catalog)[i]? =
      (perks[i]?).map (mergePerk (buildById catalog))) ∧
    (∀ p : Perk, buildById catalog (shrineKey p) = none →
      PERK_OVERRIDES (shrineKey p) = none →
      mergePerk (buildById catalog) p = p) := by
  refine ⟨by simp [mapPerksWithCatalog], fun i => by simp [mapPerksWithCatalog], fun p hf ho => ?_⟩
  simp [mergePerk, hf, ho]

/-- C2 witness: a perk with an unmatched identifier survives the merge with
an empty catalog unchanged and at its original position. -/
theorem mapPerksWithCatalog_preserves_witness :
    (mapPerksWithCatalog [c2Perk] []).length = [c2Perk].length ∧
    (mapPerksWithCatalog [c2Perk] [])[0]? = ([c2Perk][0]?).map (mergePerk (buildById [])) ∧
    buildById [] (shrineKey c2Perk) = none ∧
    PERK_OVERRIDES (shrineKey c2Perk) = none ∧
    mergePerk (buildById []) c2Perk = c2Perk :=
  ⟨(mapPerksWithCatalog_preserves [c2Perk] []).1,
   (mapPerksWithCatalog_preserves [c2Perk] []).2.1 0,
   by decide, by decide,
   (mapPerksWithCatalog_preserves [c2Perk] []).2.2 c2Perk (by decide) (by decide)⟩

/-- An override-table name is never the empty string. -/
theorem PERK_OVERRIDES_nonempty (k n : String) (h : PERK_OVERRIDES k = some n) :
    ¬ n = "" := by
  unfold PERK_OVERRIDES at h
  split at h
  · injection h with h
    subst h
    decide
  · split at h
    · injection h with h
      subst h
      decide
    · cases h

/-- C3: when a perk's normalized key has both an override-table name and a
matching catalog entry with a truthy name, the merged perk's name is the
override name. -/
theorem override_beats_catalog (catalog : List (Option Perk)) (p f : Perk) (n : String)
    (ho : PERK_OVERRIDES (shrineKey p) = some n)
    (hf : buildById catalog (shrineKey p) = some f)
    (hn : truthy f.name = true) :
    (mergePerk (buildById catalog) p).name = some n := by
  have hne : ¬ n = "" := PERK_OVERRIDES_nonempty _ _ ho
  simp [mergePerk, hf, ho, jsOr, truthy, jsOrStr, hne]

/-- C3 witness: perk k28p02 with a catalog entry carrying its own name still
gets the override name "Darkness Revealed". -/
theorem override_beats_catalog_witness :
    PERK_OVERRIDES (shrineKey c3Perk) = some "Darkness Revealed" ∧
    buildById c3Catalog (shrineKey c3Perk) = some c3CatEntry ∧
    truthy c3CatEntry.name = true ∧
    (mergePerk (buildById c3Catalog) c3Perk).name = some "Darkness Revealed" :=
  ⟨by decide, by decide, by decide,
   override_beats_catalog c3Catalog c3Perk c3CatEntry "Darkness Revealed"
     (by decide) (by decide) (by decide)⟩

/-- C6 counterexample: for the payload with perk k28p02 and icon
"/icons/a.png", merged with an empty catalog, the pipeline produces name
"Darkness Revealed" but image "/icons/a.png" — not the normalized
"https://dbd.tricky.lol/icons/a.png" the claim states, because enrichPayload
copies the raw icon value and normalizeImageUrl is applied only to
catalog-sourced images. -/
theorem c6_claim_counterexample :
    c6Pipeline.map Perk.name = [some "Darkness Revealed"] ∧
    c6Pipeline.map Perk.image = [some "/icons/a.png"] ∧
    ¬ c6Pipeline.map Perk.image = [some "https://dbd.tricky.lol/icons/a.png"] := by
  decide

/-- C6 (amended): for the payload with perk k28p02 and icon "/icons/a.png",
merged with an empty catalog under the static override table, the resulting
merged perk has name "Darkness Revealed" and image "/icons/a.png" (the raw
icon path, propagated verbatim). -/
theorem c6_amended :
    c6Pipeline.map Perk.name = [some "Darkness Revealed"] ∧
    c6Pipeline.map Perk.image = [some "/icons/a.png"] := by
  decide

/-- A truthy value produced by firstTruthy is a nonempty string. -/
theorem truthy_of_firstTruthy (l : List (Option String)) (v : String)
    (h : firstTruthy l = some v) : truthy (some v) = true := by
  induction l with
  | nil => cases h
  | cons a rest ih =>
    unfold firstTruthy at h
    by_cases ha : truthy a = true
    · rw [if_pos ha] at h
      exact h ▸ ha
    · rw [if_neg ha] at h
      exact ih h

/-- When firstTruthy finds nothing, every element of the list is falsy. -/
theorem firstTruthy_none (l : List (Option String)) (h : firstTruthy l = none) :
    ∀ x ∈ l, truthy x = false := by
  induction l with
  | nil => intro x hx; cases hx
  | cons a rest ih =>
    unfold firstTruthy at h
    by_cases ha : truthy a = true
    · rw [if_pos ha] at h
      subst h
      simp [truthy] at ha
    · rw [if_neg ha] at h
      intro x hx
      rcases List.mem_cons.1 hx with hxa | hxr
      · subst hxa
        exact Bool.eq_false_iff.mpr ha
      · exact ih h x hxr

/-- A perk with no extractable image has a falsy image field (the image
field itself is one of the extraction candidates). -/
theorem extractImage_none_image (p : Perk) (h : extractImage p = none) :
    truthy p.image = false := by
  unfold extractImage at h
  exact firstTruthy_none _ h p.image (by simp)

/-- The images loop over a perk list: each perk whose image extraction
succeeds yields exactly one record, in order; the rest are dropped. -/
theorem images_of_perks (l : List Perk) :
    ((l.map (fun perk =>
        match extractImage perk with
        | some image => { perk with image := some image }
        | none => perk)).map (fun p =>
        ({ name := firstTruthy [p.name, p.perkName, p.displayName, p.id],
           image := jsOr p.image (jsOr (extractImage p) none) } : ImageRecord))).filter
      (fun p => truthy p.image)
    = l.filterMap (fun p =>
        match extractImage p with
        | some v => some ({ name := firstTruthy [p.name, p.perkName, p.displayName, p.id],
                            image := some v } : ImageRecord)
        | none => none) := by
  induction l with
  | nil => rfl
  | cons p rest ih =>
    rw [List.map_cons, List.map_cons, List.filter_cons, List.filterMap_cons]
    cases he : extractImage p with
    | some v =>
      have hv : truthy (some v) = true := truthy_of_firstTruthy _ v he
      simp only [he]
      simp only [jsOr, hv, if_true]
      exact congrArg (List.cons _) ih
    | none =>
      have himg : truthy p.image = false := extractImage_none_image p he
      have hnone : truthy none = false := rfl
      simp only [he]
      simp only [jsOr, himg, hnone, Bool.false_eq_true, if_false]
      exact ih

/-- C10: the images list of enrichPayload holds exactly one record per perk
with an extractable image, in perk order (perks without one are silently
omitted); every record in it has a non-null image; a payload whose perks
field is absent or not an array yields empty lists without error. -/
theorem enrichPayload_images_spec (payload : Payload) :
    (enrichPayload payload).images =
      (jsPerks payload).filterMap (fun p =>
        match extractImage p with
        | some v => some ({ name := firstTruthy [p.name, p.perkName, p.displayName, p.id],
                            image := some v } : ImageRecord)
        | none => none) ∧
    (∀ r ∈ (enrichPayload payload).images, ¬ r.image = none) ∧
    (∀ b : Bool, enrichPayload { perks := PerksField.notArr b } =
      { perksWithImages := [], images := [] }) := by
  have hmain : (enrichPayload payload).images =
      (jsPerks payload).filterMap (fun p =>
        match extractImage p with
        | some v => some ({ name := firstTruthy [p.name, p.perkName, p.displayName, p.id],
                            image := some v } : ImageRecord)
        | none => none) := images_of_perks (jsPerks payload)
  refine ⟨hmain, ?_, ?_⟩
  · intro r hr
    rw [hmain] at hr
    rcases List.mem_filterMap.1 hr with ⟨p, hp, heq⟩
    cases he : extractImage p with
    | some v =>
      simp only [he] at heq
      injection heq with heq
      rw [← heq]
      simp
    | none =>
      simp only [he] at heq
      cases heq
  · intro b
    cases b <;> rfl

/-- C10 witness: a concrete payload with one image-bearing perk and one bare
perk yields a single image record (non-null image), and a non-array perks
field yields empty lists. -/
theorem enrichPayload_images_spec_witness :
    ({ name := some "WithIcon", image := some "icons/w.png" } : ImageRecord) ∈
      (enrichPayload c10Payload).images ∧
    ¬ ({ name := some "WithIcon", image := some "icons/w.png" } : ImageRecord).image = none ∧
    enrichPayload { perks := PerksField.notArr true } = { perksWithImages := [], images := [] } ∧
    (enrichPayload c10Payload).images.length = 1 ∧
    (jsPerks c10Payload).length = 2 :=
  ⟨by decide,
   (enrichPayload_images_spec c10Payload).2.1 _ (by decide),
   (enrichPayload_images_spec c10Payload).2.2 true,
   by decide, by decide⟩

/-- C4: a refresh attempt (forced, or non-forced with the TTL expired) on a
warm cache whose upstream shrine fetch fails propagates the error and leaves
the cache state, snapshot and fetch timestamp exactly as they were. -/
theorem loadShrine_failed_refresh (force : Bool) (now : Nat) (nowIso : String)
    (cands : List (String × FetchResult)) (catr : Except String (List (Option Perk)))
    (st : CacheState) (snap : Snapshot) (e : String)
    (hc : st.cache = some snap)
    (hfail : fetchFromSources cands = Except.error e)
    (hattempt : force = true ∨ CACHE_TIME ≤ now - st.lastFetch) :
    loadShrine force now nowIso cands catr st = (st, Except.error e) := by
  have hcond : ¬ (force = false ∧ now - st.lastFetch < CACHE_TIME) := by
    rintro ⟨h1, h2⟩
    rcases hattempt with h | h
    · rw [h] at h1
      cases h1
    · omega
  simp only [loadShrine, hc]
  rw [if_neg hcond]
  simp only [refreshShrine, hfail]

/-- C4 witness: a forced refresh on the warm demo state with every source
failing returns the aggregate error and the untouched state. -/
theorem loadShrine_failed_refresh_witness :
    demoState.cache = some demoSnap ∧
    fetchFromSources c8Cands =
      Except.error "All shrine sources failed: u1 -> 503 | u2 -> ECONNRESET | u3 -> invalid json" ∧
    loadShrine true 123 "t" c8Cands (Except.ok []) demoState =
      (demoState,
       Except.error "All shrine sources failed: u1 -> 503 | u2 -> ECONNRESET | u3 -> invalid json") :=
  ⟨rfl, by decide,
   loadShrine_failed_refresh true 123 "t" c8Cands (Except.ok []) demoState demoSnap _
     rfl (by decide) (Or.inl rfl)⟩

/-- C5: a non-forced read on a warm cache strictly within the TTL returns
the existing snapshot and state unchanged, whatever the fetch environment
would have produced (no upstream call is observable); in particular a read
at lastFetch + TTL - 1 is a hit, while a read at lastFetch + TTL + 1 runs
the refresh path and surfaces the fetch outcome. -/
theorem loadShrine_cache_hit (nowIso : String) (cands : List (String × FetchResult))
    (catr : Except String (List (Option Perk))) (st : CacheState) (snap : Snapshot)
    (hc : st.cache = some snap) :
    (∀ now : Nat, now - st.lastFetch < CACHE_TIME →
      loadShrine false now nowIso cands catr st = (st, Except.ok snap)) ∧
    loadShrine false (st.lastFetch + CACHE_TIME - 1) nowIso cands catr st = (st, Except.ok snap) ∧
    (∀ u m : String,
      loadShrine false (st.lastFetch + CACHE_TIME + 1) nowIso [(u, FetchResult.networkError m)] catr st =
        (st, Except.error ("All shrine sources failed: " ++ (u ++ " -> " ++ m)))) := by
  have hct : 0 < CACHE_TIME := by decide
  have hit : ∀ now : Nat, now - st.lastFetch < CACHE_TIME →
      loadShrine false now nowIso cands catr st = (st, Except.ok snap) := by
    intro now h
    simp only [loadShrine, hc]
    rw [if_pos ⟨trivial, h⟩]
  refine ⟨hit, hit _ (by omega), ?_⟩
  intro u m
  have hcond : ¬ (True ∧ st.lastFetch + CACHE_TIME + 1 - st.lastFetch < CACHE_TIME) := by
    rintro ⟨h1, h2⟩
    omega
  simp only [loadShrine, hc]
  rw [if_neg hcond]
  rfl

/-- C5 witness: on the warm demo state, a read at time 5 is a hit (even with
every source down), and a read past the TTL surfaces the fetch error. -/
theorem loadShrine_cache_hit_witness :
    demoState.cache = some demoSnap ∧
    5 - demoState.lastFetch < CACHE_TIME ∧
    loadShrine false 5 "t" c8Cands (Except.error "down") demoState = (demoState, Except.ok demoSnap) ∧
    loadShrine false (demoState.lastFetch + CACHE_TIME + 1) "t"
        [("u", FetchResult.networkError "boom")] (Except.error "down") demoState =
      (demoState, Except.error ("All shrine sources failed: " ++ ("u" ++ " -> " ++ "boom"))) :=
  ⟨rfl, by decide,
   (loadShrine_cache_hit "t" c8Cands (Except.error "down") demoState demoSnap rfl).1 5 (by decide),
   (loadShrine_cache_hit "t" [("u", FetchResult.networkError "boom")] (Except.error "down")
     demoState demoSnap rfl).2.2 "u" "boom"⟩

/-- C7: when the shrine fetch succeeds and the catalog fetch fails, the
refresh still succeeds and degrades to plain image-only enrichment of the
raw shrine payload; in particular a perk with an absolute image URL passes
through perksWithImages untouched. -/
theorem catalog_failure_degrades (force : Bool) (now : Nat) (nowIso : String)
    (cands : List (String × FetchResult)) (e : String) (st : CacheState)
    (u : String) (payload : Payload)
    (hmiss : st.cache = none ∨ force = true ∨ CACHE_TIME ≤ now - st.lastFetch)
    (hf : fetchFromSources cands = Except.ok (u, payload)) :
    (loadShrine force now nowIso cands (Except.error e) st).2 =
      Except.ok { fetchedAt := nowIso, sourceUsed := u, sourceTried := cands.map Prod.fst,
                  data := payload,
                  perksWithImages := (enrichPayload payload).perksWithImages,
                  images := (enrichPayload payload).images } ∧
    (enrichPayload c7Payload).perksWithImages = [c7Perk] := by
  constructor
  · have hrefresh : (refreshShrine now nowIso cands (Except.error e) st).2 =
        Except.ok { fetchedAt := nowIso, sourceUsed := u, sourceTried := cands.map Prod.fst,
                    data := payload,
                    perksWithImages := (enrichPayload payload).perksWithImages,
                    images := (enrichPayload payload).images } := by
      simp only [refreshShrine, hf]
    cases hcache : st.cache with
    | none =>
      simp only [loadShrine, hcache]
      exact hrefresh
    | some snap =>
      have hcond : ¬ (force = false ∧ now - st.lastFetch < CACHE_TIME) := by
        rintro ⟨h1, h2⟩
        rcases hmiss with h | h | h
        · rw [hcache] at h
          cases h
        · rw [h] at h1
          cases h1
        · omega
      simp only [loadShrine, hcache]
      rw [if_neg hcond]
      exact hrefresh
  · decide

/-- C7 witness: from the cold state, with the single shrine source
succeeding on the C7 payload and the catalog fetch failing, the snapshot is
the plainly enriched payload and the absolute image URL is untouched. -/
theorem catalog_failure_degrades_witness :
    fetchFromSources [("src", FetchResult.response 200 (Except.ok c7Payload))] =
      Except.ok ("src", c7Payload) ∧
    (loadShrine false 0 "t" [("src", FetchResult.response 200 (Except.ok c7Payload))]
        (Except.error "catalog down") coldState).2 =
      Except.ok { fetchedAt := "t", sourceUsed := "src", sourceTried := ["src"],
                  data := c7Payload,
                  perksWithImages := (enrichPayload c7Payload).perksWithImages,
                  images := (enrichPayload c7Payload).images } ∧
    (enrichPayload c7Payload).perksWithImages = [c7Perk] :=
  ⟨by decide,
   (catalog_failure_degrades false 0 "t" [("src", FetchResult.response 200 (Except.ok c7Payload))]
     "catalog down" coldState "src" c7Payload (Or.inl rfl) (by decide)).1,
   (catalog_failure_degrades false 0 "t" [("src", FetchResult.response 200 (Except.ok c7Payload))]
     "catalog down" coldState "src" c7Payload (Or.inl rfl) (by decide)).2⟩

end ShrineUpdater
